import Mathlib

/-!
# Verification of the Resilient Visual Interaction Core (veritas_core)

Shallow embedding of the engine modules of `src/veritas_core/src/engine/`
(`semantic_healer.rs`, `observer.rs`, `agent.rs`, `neural_locator.rs`) and
proofs of the specified properties.

Modelling conventions:
* `f32` arithmetic is modelled exactly, over `ℝ` where a square root occurs
  (cosine similarity and everything downstream of it) and over `ℚ` where the
  computation is rational (the observer scores).
* Rust `u32`/`u64` counters are modelled as `ℕ` (no computation here comes
  near an overflow boundary).
* Sources of nondeterminism that are outside a pure embedding —
  `rand::thread_rng`, `StdRng` pseudo-random streams, wall-clock durations,
  UUIDs, the base64 decoder and the image codecs — are passed in as explicit
  parameters, so every theorem quantifies over them.
-/

/-! ## Levenshtein distance (`semantic_healer.rs`, mod `levenshtein`)

`levenshtein::levenshtein` fills the classic dynamic-programming matrix
`matrix[i][j]` = edit distance between the first `i` characters of `a` and the
first `j` characters of `b`, with `matrix[i][0] = i`, `matrix[0][j] = j` and
`matrix[i+1][j+1] = min (min (matrix[i][j+1]+1) (matrix[i+1][j]+1))
(matrix[i][j] + cost)` where `cost = 0` iff the characters agree.  That
recurrence, with those base cases and unit costs, is exactly Mathlib's
`levenshtein Levenshtein.defaultCost` (see `levenshtein_cons_cons`,
`levenshtein_nil_cons`, `levenshtein_cons_nil`), which we therefore use as the
embedding of the function computed by the matrix. -/
def levenshteinDist (a b : List Char) : ℕ :=
  levenshtein Levenshtein.defaultCost a b

theorem levenshteinDist_nil_left (b : List Char) : levenshteinDist [] b = b.length := by
  induction b with
  | nil => simp [levenshteinDist]
  | cons y ys ih =>
    simp only [levenshteinDist] at ih ⊢
    simp [levenshtein_nil_cons, ih]
    omega

theorem levenshteinDist_nil_right (a : List Char) : levenshteinDist a [] = a.length := by
  induction a with
  | nil => simp [levenshteinDist]
  | cons x xs ih =>
    simp only [levenshteinDist] at ih ⊢
    simp [levenshtein_cons_nil, ih]
    omega

theorem levenshteinDist_cons_cons (x : Char) (xs : List Char) (y : Char) (ys : List Char) :
    levenshteinDist (x :: xs) (y :: ys) =
      min (levenshteinDist xs (y :: ys) + 1)
        (min (levenshteinDist (x :: xs) ys + 1)
          (levenshteinDist xs ys + if x = y then 0 else 1)) := by
  simp only [levenshteinDist, levenshtein_cons_cons, Levenshtein.defaultCost]
  omega

/-- The edit distance never exceeds the length of the longer string: one can
always substitute the overlap and insert/delete the rest. -/
theorem levenshteinDist_le_max (a b : List Char) :
    levenshteinDist a b ≤ max a.length b.length := by
  induction a generalizing b with
  | nil => simp [levenshteinDist_nil_left]
  | cons x xs ih =>
    cases b with
    | nil => simp [levenshteinDist_nil_right]
    | cons y ys =>
      have h := ih ys
      rw [levenshteinDist_cons_cons]
      simp only [List.length_cons]
      have hcost : (if x = y then 0 else 1) ≤ 1 := by split <;> omega
      have : levenshteinDist xs ys + (if x = y then 0 else 1) ≤ max xs.length ys.length + 1 := by
        omega
      calc min (levenshteinDist xs (y :: ys) + 1)
            (min (levenshteinDist (x :: xs) ys + 1)
              (levenshteinDist xs ys + if x = y then 0 else 1))
          ≤ levenshteinDist xs ys + (if x = y then 0 else 1) :=
            le_trans (min_le_right _ _) (min_le_right _ _)
        _ ≤ max xs.length ys.length + 1 := this
        _ ≤ max (xs.length + 1) (ys.length + 1) := by omega

/-- The edit distance is `0` exactly for equal strings. -/
theorem levenshteinDist_eq_zero_iff (a b : List Char) :
    levenshteinDist a b = 0 ↔ a = b := by
  induction a generalizing b with
  | nil =>
    cases b with
    | nil => simp [levenshteinDist]
    | cons y ys => simp [levenshteinDist_nil_left]
  | cons x xs ih =>
    cases b with
    | nil => simp [levenshteinDist_nil_right]
    | cons y ys =>
      rw [levenshteinDist_cons_cons]
      constructor
      · intro h
        rcases Nat.min_eq_zero_iff.mp h with h1 | h2
        · omega
        rcases Nat.min_eq_zero_iff.mp h2 with h3 | h4
        · omega
        have hxy : x = y := by
          by_contra hne
          simp [hne] at h4
        have hxs : xs = ys := (ih ys).mp (by omega)
        simp [hxy, hxs]
      · rintro h
        injection h with h1 h2
        subst h1; subst h2
        have hxs : levenshteinDist xs xs = 0 := (ih xs).mpr rfl
        simp [hxs]

/-! ## Cosine and string similarity (`semantic_healer.rs`) -/

/-- `v1.iter().zip(v2.iter()).map(|(a, b)| a * b).sum()` -/
def dotProduct (v1 v2 : List ℝ) : ℝ :=
  (List.zipWith (fun a b => a * b) v1 v2).sum

/-- `v.iter().map(|a| a * a).sum::<f32>()` — the square of the Euclidean norm. -/
def sumSq (v : List ℝ) : ℝ :=
  (v.map fun a => a * a).sum

/-- `SemanticHealer::cosine_similarity`: `0` on length mismatch or an empty
first vector, `0` when either norm is zero, else the normalized dot product. -/
noncomputable def cosineSimilarity (v1 v2 : List ℝ) : ℝ :=
  if v1.length ≠ v2.length ∨ v1 = [] then 0
  else if Real.sqrt (sumSq v1) = 0 ∨ Real.sqrt (sumSq v2) = 0 then 0
  else dotProduct v1 v2 / (Real.sqrt (sumSq v1) * Real.sqrt (sumSq v2))

/-- `SemanticHealer::string_similarity`: `1 - dist / max_len` over the
character counts, `1` when both strings are empty. -/
noncomputable def stringSimilarity (s1 s2 : String) : ℝ :=
  if max s1.data.length s2.data.length = 0 then 1
  else 1 - (levenshteinDist s1.data s2.data : ℝ) / (max s1.data.length s2.data.length : ℝ)

theorem sumSq_nonneg (v : List ℝ) : 0 ≤ sumSq v := by
  induction v with
  | nil => simp [sumSq]
  | cons x xs ih =>
    simp only [sumSq, List.map_cons, List.sum_cons] at ih ⊢
    nlinarith [sq_nonneg x]

/-- Cauchy–Schwarz for the truncating zip-with dot product. -/
theorem dotProduct_sq_le (v1 v2 : List ℝ) :
    dotProduct v1 v2 ^ 2 ≤ sumSq v1 * sumSq v2 := by
  induction v1 generalizing v2 with
  | nil =>
    simp [dotProduct, sumSq]
  | cons x xs ih =>
    cases v2 with
    | nil =>
      simp [dotProduct, sumSq]
    | cons y ys =>
      have h := ih ys
      have ha := sumSq_nonneg xs
      have hb := sumSq_nonneg ys
      simp only [dotProduct, sumSq, List.zipWith_cons_cons, List.map_cons,
        List.sum_cons] at h ha hb ⊢
      rcases eq_or_lt_of_le ha with hna | hna
      · have hd : (List.zipWith (fun a b => a * b) xs ys).sum = 0 := by
          have h0 : (List.zipWith (fun a b => a * b) xs ys).sum ^ 2 ≤ 0 := by
            rw [← hna] at h
            simpa using h
          nlinarith [sq_nonneg ((List.zipWith (fun a b => a * b) xs ys).sum)]
        rw [hd, ← hna]
        nlinarith [sq_nonneg x, sq_nonneg y, hb]
      · have hcs : 0 ≤ (xs.map fun a => a * a).sum * (ys.map fun b => b * b).sum
            - ((List.zipWith (fun a b => a * b) xs ys).sum) ^ 2 := by linarith
        have hx2 : (0:ℝ) ≤ x * x + (xs.map fun a => a * a).sum := by nlinarith [sq_nonneg x]
        nlinarith [mul_nonneg hx2 hcs,
          sq_nonneg (x * ((List.zipWith (fun a b => a * b) xs ys).sum)
            - y * ((xs.map fun a => a * a).sum)), hna]

theorem dotProduct_self (v : List ℝ) : dotProduct v v = sumSq v := by
  induction v with
  | nil => simp [dotProduct, sumSq]
  | cons x xs ih =>
    simp only [dotProduct, sumSq, List.zipWith_cons_cons, List.map_cons,
      List.sum_cons] at ih ⊢
    rw [ih]

theorem cosineSimilarity_le_one (v1 v2 : List ℝ) : cosineSimilarity v1 v2 ≤ 1 := by
  unfold cosineSimilarity
  split
  · norm_num
  split
  · norm_num
  next hzero =>
    push_neg at hzero
    obtain ⟨ha, hb⟩ := hzero
    have hsa := sumSq_nonneg v1
    have hsb := sumSq_nonneg v2
    have hsqa : 0 < Real.sqrt (sumSq v1) := lt_of_le_of_ne (Real.sqrt_nonneg _) (Ne.symm ha)
    have hsqb : 0 < Real.sqrt (sumSq v2) := lt_of_le_of_ne (Real.sqrt_nonneg _) (Ne.symm hb)
    rw [div_le_one (by positivity)]
    have habs : dotProduct v1 v2 ≤ Real.sqrt (sumSq v1 * sumSq v2) := by
      have h1 : dotProduct v1 v2 ≤ |dotProduct v1 v2| := le_abs_self _
      have h2 : |dotProduct v1 v2| = Real.sqrt (dotProduct v1 v2 ^ 2) := by
        rw [Real.sqrt_sq_eq_abs]
      have h3 : Real.sqrt (dotProduct v1 v2 ^ 2) ≤ Real.sqrt (sumSq v1 * sumSq v2) :=
        Real.sqrt_le_sqrt (dotProduct_sq_le v1 v2)
      linarith
    calc dotProduct v1 v2 ≤ Real.sqrt (sumSq v1 * sumSq v2) := habs
      _ = Real.sqrt (sumSq v1) * Real.sqrt (sumSq v2) := Real.sqrt_mul hsa _

theorem neg_one_le_cosineSimilarity (v1 v2 : List ℝ) : -1 ≤ cosineSimilarity v1 v2 := by
  unfold cosineSimilarity
  split
  · norm_num
  split
  · norm_num
  next hzero =>
    push_neg at hzero
    obtain ⟨ha, hb⟩ := hzero
    have hsa := sumSq_nonneg v1
    have hsb := sumSq_nonneg v2
    have hsqa : 0 < Real.sqrt (sumSq v1) := lt_of_le_of_ne (Real.sqrt_nonneg _) (Ne.symm ha)
    have hsqb : 0 < Real.sqrt (sumSq v2) := lt_of_le_of_ne (Real.sqrt_nonneg _) (Ne.symm hb)
    rw [neg_le, ← neg_div]
    rw [div_le_one (by positivity)]
    have habs : -dotProduct v1 v2 ≤ Real.sqrt (sumSq v1 * sumSq v2) := by
      have h1 : -dotProduct v1 v2 ≤ |dotProduct v1 v2| := neg_le_abs _
      have h2 : |dotProduct v1 v2| = Real.sqrt (dotProduct v1 v2 ^ 2) := by
        rw [Real.sqrt_sq_eq_abs]
      have h3 : Real.sqrt (dotProduct v1 v2 ^ 2) ≤ Real.sqrt (sumSq v1 * sumSq v2) :=
        Real.sqrt_le_sqrt (dotProduct_sq_le v1 v2)
      linarith
    calc -dotProduct v1 v2 ≤ Real.sqrt (sumSq v1 * sumSq v2) := habs
      _ = Real.sqrt (sumSq v1) * Real.sqrt (sumSq v2) := Real.sqrt_mul hsa _

theorem cosineSimilarity_self (v : List ℝ) (hv : sumSq v ≠ 0) :
    cosineSimilarity v v = 1 := by
  have hvne : v ≠ [] := by
    rintro rfl
    simp [sumSq] at hv
  have hpos : 0 < sumSq v := lt_of_le_of_ne (sumSq_nonneg v) (Ne.symm hv)
  have hsq : Real.sqrt (sumSq v) ≠ 0 := by
    rw [Real.sqrt_ne_zero (le_of_lt hpos)]
    exact hv
  unfold cosineSimilarity
  rw [if_neg (by simp [hvne]), if_neg (by simp [hsq])]
  rw [dotProduct_self, Real.mul_self_sqrt (le_of_lt hpos), div_self hv]

theorem cosineSimilarity_zero_norm (v1 v2 : List ℝ)
    (h : Real.sqrt (sumSq v1) = 0 ∨ Real.sqrt (sumSq v2) = 0) :
    cosineSimilarity v1 v2 = 0 := by
  unfold cosineSimilarity
  rcases h with h | h <;> simp [h]

theorem sumSq_eq_zero_iff (v : List ℝ) : sumSq v = 0 ↔ ∀ x ∈ v, x = 0 := by
  induction v with
  | nil => simp [sumSq]
  | cons x xs ih =>
    simp only [sumSq, List.map_cons, List.sum_cons, List.mem_cons] at ih ⊢
    constructor
    · intro h
      have hx := sq_nonneg x
      have hxs := sumSq_nonneg xs
      simp only [sumSq] at hxs
      have hx0 : x * x = 0 := by nlinarith
      have hxs0 : (xs.map fun a => a * a).sum = 0 := by nlinarith
      have hx' : x = 0 := by
        have := mul_self_eq_zero.mp hx0
        exact this
      exact fun y hy => hy.elim (fun h' => h' ▸ hx') (fun h' => (ih.mp hxs0) y h')
    · intro h
      have hx : x = 0 := h x (Or.inl rfl)
      have hxs : (xs.map fun a => a * a).sum = 0 := ih.mpr fun y hy => h y (Or.inr hy)
      rw [hx, hxs]
      ring

theorem stringSimilarity_nonneg (s1 s2 : String) : 0 ≤ stringSimilarity s1 s2 := by
  unfold stringSimilarity
  split
  · norm_num
  next h =>
    have hm : 0 < max s1.data.length s2.data.length := Nat.pos_of_ne_zero h
    have hd : levenshteinDist s1.data s2.data ≤ max s1.data.length s2.data.length :=
      levenshteinDist_le_max _ _
    have h1 : (levenshteinDist s1.data s2.data : ℝ) / (max s1.data.length s2.data.length : ℝ) ≤ 1 := by
      rw [div_le_one (by exact_mod_cast hm)]
      exact_mod_cast hd
    linarith

theorem stringSimilarity_le_one (s1 s2 : String) : stringSimilarity s1 s2 ≤ 1 := by
  unfold stringSimilarity
  split
  · norm_num
  next h =>
    have hm : 0 < max s1.data.length s2.data.length := Nat.pos_of_ne_zero h
    have h1 : 0 ≤ (levenshteinDist s1.data s2.data : ℝ) / (max s1.data.length s2.data.length : ℝ) := by
      positivity
    linarith

theorem stringSimilarity_eq_one_iff (s1 s2 : String) :
    stringSimilarity s1 s2 = 1 ↔ s1 = s2 := by
  rw [String.ext_iff]
  unfold stringSimilarity
  split
  · next h =>
    have h1 : s1.data = [] := List.length_eq_zero.mp (by omega)
    have h2 : s2.data = [] := List.length_eq_zero.mp (by omega)
    simp [h1, h2]
  · next h =>
    have hm : 0 < max s1.data.length s2.data.length := Nat.pos_of_ne_zero h
    have hmR : (0:ℝ) < (max s1.data.length s2.data.length : ℝ) := by exact_mod_cast hm
    constructor
    · intro he
      have hq : (levenshteinDist s1.data s2.data : ℝ) / (max s1.data.length s2.data.length : ℝ) = 0 := by
        linarith
      have hd : (levenshteinDist s1.data s2.data : ℝ) = 0 := by
        rcases div_eq_zero_iff.mp hq with h' | h'
        · exact h'
        · exact absurd h' (ne_of_gt hmR)
      exact (levenshteinDist_eq_zero_iff s1.data s2.data).mp (by exact_mod_cast hd)
    · intro he
      have h0 : levenshteinDist s1.data s2.data = 0 :=
        (levenshteinDist_eq_zero_iff s1.data s2.data).mpr he
      simp [h0]

theorem cosineSimilarity_example_same : cosineSimilarity [1, 0, 0] [1, 0, 0] = 1 := by
  apply cosineSimilarity_self
  have hs : sumSq [1, 0, 0] = 1 := by norm_num [sumSq]
  rw [hs]
  norm_num

theorem cosineSimilarity_example_orth : cosineSimilarity [1, 0, 0] [0, 1, 0] = 0 := by
  unfold cosineSimilarity
  rw [if_neg (by simp)]
  have hs1 : sumSq [(1:ℝ), 0, 0] = 1 := by norm_num [sumSq]
  have hs2 : sumSq [(0:ℝ), 1, 0] = 1 := by norm_num [sumSq]
  rw [hs1, hs2, if_neg (by rw [Real.sqrt_one]; norm_num)]
  norm_num [dotProduct]

/-- C9: `cosine_similarity` is bounded by `[-1, 1]` for equal-length vectors of
nonzero norm, equals `1` on any nonzero vector paired with itself, equals `0`
whenever either norm is zero, and takes the specified values on the two
example vector pairs. -/
theorem cosineSimilarity_claims :
    (∀ a b : List ℝ, a.length = b.length → Real.sqrt (sumSq a) ≠ 0 →
        Real.sqrt (sumSq b) ≠ 0 →
        -1 ≤ cosineSimilarity a b ∧ cosineSimilarity a b ≤ 1)
    ∧ (∀ a : List ℝ, (∃ x ∈ a, x ≠ 0) → cosineSimilarity a a = 1)
    ∧ (∀ a b : List ℝ, Real.sqrt (sumSq a) = 0 ∨ Real.sqrt (sumSq b) = 0 →
        cosineSimilarity a b = 0)
    ∧ cosineSimilarity [1, 0, 0] [1, 0, 0] = 1
    ∧ cosineSimilarity [1, 0, 0] [0, 1, 0] = 0 := by
  refine ⟨fun a b _ _ _ => ⟨neg_one_le_cosineSimilarity a b, cosineSimilarity_le_one a b⟩,
    fun a ha => ?_, cosineSimilarity_zero_norm, cosineSimilarity_example_same,
    cosineSimilarity_example_orth⟩
  apply cosineSimilarity_self
  intro h0
  obtain ⟨x, hx, hxne⟩ := ha
  exact hxne ((sumSq_eq_zero_iff a).mp h0 x hx)

/-- C10: `string_similarity` always lies in `[0, 1]`, and equals `1` exactly
when the two strings are equal (including the empty-empty case), because the
Levenshtein distance is `0` iff the strings are equal and never exceeds the
longer length. -/
theorem stringSimilarity_claims : ∀ s1 s2 : String,
    (0 ≤ stringSimilarity s1 s2 ∧ stringSimilarity s1 s2 ≤ 1)
    ∧ (stringSimilarity s1 s2 = 1 ↔ s1 = s2) :=
  fun s1 s2 => ⟨⟨stringSimilarity_nonneg s1 s2, stringSimilarity_le_one s1 s2⟩,
    stringSimilarity_eq_one_iff s1 s2⟩

/-! ## Semantic healer (`semantic_healer.rs`)

`SemanticHealer::heal` scores the six hard-coded page candidates against the
request and keeps the best-scoring one.  Each candidate's visual embedding is
produced by `mock_embedding_from_string`, which draws 768 `f32`s from a
`StdRng` seeded with the byte-sum of the candidate string; that pseudo-random
stream lies outside the pure embedding, so the candidate-embedding map is an
explicit parameter `embed` of `heal`.  The human-readable `reason` and
`audit_trail` strings are derived reporting only and are not modelled. -/

structure HealRequest where
  failed_selector : String
  last_known_embedding : List ℝ
  current_image : String

structure HealResult where
  healed : Bool
  new_selector : String
  similarity_score : ℝ

structure SemanticHealer where
  threshold : ℝ

/-- `SemanticHealer::new` — threshold `0.70` ("Slightly lower threshold for
combined score"). -/
noncomputable def SemanticHealer.new : SemanticHealer :=
  { threshold := 0.70 }

/-- The six simulated page candidates of `SemanticHealer::heal`. -/
def healCandidates : List String :=
  ["#header-logo", ".navigation-link", "#submit-order-btn",
   "button[type=\x27submit\x27]", ".footer-copyright", "#checkout-container"]

/-- One loop iteration's combined score:
`(str_sim * 0.4) + (visual_sim * 0.6)`. -/
noncomputable def combinedScore (embed : String → List ℝ) (req : HealRequest)
    (c : String) : ℝ :=
  stringSimilarity req.failed_selector c * 0.4 +
    cosineSimilarity req.last_known_embedding (embed c) * 0.6

/-- The candidate loop: starting from `best_candidate = ""`, `best_score = 0.0`,
replace the best pair whenever a candidate scores strictly higher. -/
noncomputable def healFold (embed : String → List ℝ) (req : HealRequest)
    (l : List String) (acc : String × ℝ) : String × ℝ :=
  l.foldl (fun acc c =>
    if combinedScore embed req c > acc.2 then (c, combinedScore embed req c) else acc) acc

/-- `SemanticHealer::heal`. -/
noncomputable def SemanticHealer.heal (h : SemanticHealer) (embed : String → List ℝ)
    (req : HealRequest) : HealResult :=
  let best := healFold embed req healCandidates ("", 0)
  if best.2 > h.threshold then
    { healed := true, new_selector := best.1, similarity_score := best.2 }
  else
    { healed := false, new_selector := "", similarity_score := best.2 }

/-- The score component of the best-tracking fold is a running maximum. -/
theorem healFold_snd (embed : String → List ℝ) (req : HealRequest)
    (l : List String) (acc : String × ℝ) :
    (healFold embed req l acc).2 = l.foldl (fun m c => max m (combinedScore embed req c)) acc.2 := by
  induction l generalizing acc with
  | nil => rfl
  | cons c cs ih =>
    simp only [healFold, List.foldl_cons] at ih ⊢
    rw [ih]
    congr 1
    split
    · next hgt => simp [max_eq_right (le_of_lt hgt)]
    · next hle => simp [max_eq_left (le_of_not_lt hle)]

/-- C6: a successful heal always reports a score strictly above the healer's
threshold; `healed = true` with `similarity_score ≤ threshold` is impossible. -/
theorem heal_healed_imp_score_gt_threshold (h : SemanticHealer)
    (embed : String → List ℝ) (req : HealRequest)
    (hh : (h.heal embed req).healed = true) :
    (h.heal embed req).similarity_score > h.threshold := by
  unfold SemanticHealer.heal at hh ⊢
  by_cases hcmp : (healFold embed req healCandidates ("", 0)).2 > h.threshold
  · rw [if_pos hcmp] at hh ⊢
    exact hcmp
  · rw [if_neg hcmp] at hh
    simp at hh

theorem healFold_cons (embed : String → List ℝ) (req : HealRequest)
    (c : String) (cs : List String) (acc : String × ℝ) :
    healFold embed req (c :: cs) acc =
      healFold embed req cs
        (if combinedScore embed req c > acc.2 then (c, combinedScore embed req c) else acc) :=
  rfl

theorem healFold_no_update (embed : String → List ℝ) (req : HealRequest)
    (l : List String) (acc : String × ℝ)
    (h : ∀ c ∈ l, ¬combinedScore embed req c > acc.2) :
    healFold embed req l acc = acc := by
  induction l with
  | nil => rfl
  | cons c cs ih =>
    rw [healFold_cons, if_neg (h c (List.mem_cons_self c cs))]
    exact ih fun c' hc' => h c' (List.mem_cons_of_mem c hc')

theorem healFold_congr (e1 e2 : String → List ℝ) (req : HealRequest)
    (l : List String) (acc : String × ℝ)
    (h : ∀ c ∈ l, combinedScore e1 req c = combinedScore e2 req c) :
    healFold e1 req l acc = healFold e2 req l acc := by
  induction l generalizing acc with
  | nil => rfl
  | cons c cs ih =>
    rw [healFold_cons, healFold_cons, h c (List.mem_cons_self c cs)]
    exact ih _ fun c' hc' => h c' (List.mem_cons_of_mem c hc')

/-- C5 (amended): with the healer `SemanticHealer::new` builds, the reported
`similarity_score` is the running maximum (started at `0`) of the combined
scores `0.4·string + 0.6·visual` over every candidate, and `healed = true`
exactly when that maximum strictly exceeds the constructor's threshold `0.70`. -/
theorem heal_new_score_spec (embed : String → List ℝ) (req : HealRequest) :
    (SemanticHealer.new.heal embed req).similarity_score =
      (healCandidates.map (combinedScore embed req)).foldl max 0
    ∧ ((SemanticHealer.new.heal embed req).healed = true ↔
        (healCandidates.map (combinedScore embed req)).foldl max 0 > 0.70) := by
  have hmax : (healFold embed req healCandidates ("", 0)).2 =
      (healCandidates.map (combinedScore embed req)).foldl max 0 := by
    rw [healFold_snd, List.foldl_map]
  unfold SemanticHealer.heal
  by_cases hcmp : (healFold embed req healCandidates ("", 0)).2 > SemanticHealer.new.threshold
  · rw [if_pos hcmp]
    refine ⟨hmax, ?_⟩
    simp only [true_iff]
    rw [← hmax]
    exact hcmp
  · rw [if_neg hcmp]
    refine ⟨hmax, ?_⟩
    simp only [Bool.false_eq_true, false_iff]
    rw [← hmax]
    simpa [SemanticHealer.new] using hcmp

/-- The concrete candidate-embedding map used in the evaluation instances:
the first candidate is visually identical to the last known embedding, the
others have a zero embedding. -/
noncomputable def embedX : String → List ℝ :=
  fun c => if c = "#header-logo" then [1] else [0]

/-- Concrete heal request: failed selector `"#header"`, last known embedding
`[1]`. -/
noncomputable def reqX : HealRequest :=
  { failed_selector := "#header", last_known_embedding := [1], current_image := "" }

theorem stringSimilarity_header : stringSimilarity "#header" "#header-logo" = 7 / 12 := by
  have h5 : levenshteinDist "#header".data "#header-logo".data = 5 := by decide
  have hl1 : "#header".data.length = 7 := by decide
  have hl2 : "#header-logo".data.length = 12 := by decide
  unfold stringSimilarity
  rw [hl1, hl2, h5]
  norm_num

theorem combinedScore_headerLogo :
    combinedScore embedX reqX "#header-logo" = 5 / 6 := by
  have hcos : cosineSimilarity [(1:ℝ)] [(1:ℝ)] = 1 := by
    apply cosineSimilarity_self
    have : sumSq [(1:ℝ)] = 1 := by norm_num [sumSq]
    rw [this]; norm_num
  unfold combinedScore
  show stringSimilarity "#header" "#header-logo" * 0.4 +
      cosineSimilarity [1] (embedX "#header-logo") * 0.6 = 5 / 6
  rw [show embedX "#header-logo" = [1] from if_pos rfl, stringSimilarity_header, hcos]
  norm_num

theorem combinedScore_other (c : String) (hc : ¬c = "#header-logo") :
    combinedScore embedX reqX c ≤ 0.4 := by
  have hcos : cosineSimilarity [(1:ℝ)] [(0:ℝ)] = 0 := by
    apply cosineSimilarity_zero_norm
    right
    have : sumSq [(0:ℝ)] = 0 := by norm_num [sumSq]
    rw [this, Real.sqrt_zero]
  unfold combinedScore
  show stringSimilarity "#header" c * 0.4 + cosineSimilarity [1] (embedX c) * 0.6 ≤ 0.4
  rw [show embedX c = [0] from if_neg hc, hcos]
  have h1 := stringSimilarity_le_one "#header" c
  nlinarith

/-- Full evaluation of `heal` on the concrete instance: the first candidate
scores `7/12·0.4 + 1·0.6 = 5/6`, every other candidate scores at most `0.4`,
so healing succeeds at score `5/6`. -/
theorem healEvalX :
    SemanticHealer.new.heal embedX reqX =
      { healed := true, new_selector := "#header-logo", similarity_score := 5 / 6 } := by
  have hfold : healFold embedX reqX healCandidates ("", 0) = ("#header-logo", 5 / 6) := by
    show healFold embedX reqX
      ("#header-logo" :: [".navigation-link", "#submit-order-btn",
        "button[type=\x27submit\x27]", ".footer-copyright", "#checkout-container"]) ("", 0) =
      ("#header-logo", 5 / 6)
    rw [healFold_cons, combinedScore_headerLogo,
      if_pos (by norm_num : (5:ℝ)/6 > (("", (0:ℝ)) : String × ℝ).2)]
    apply healFold_no_update
    intro c hc
    have hne : ¬c = "#header-logo" := by
      simp only [List.mem_cons, List.not_mem_nil, or_false] at hc
      rcases hc with h | h | h | h | h <;> subst h <;> decide
    have := combinedScore_other c hne
    simp only [not_lt]
    calc combinedScore embedX reqX c ≤ 0.4 := this
      _ ≤ ("#header-logo", (5:ℝ)/6).2 := by norm_num
  unfold SemanticHealer.heal
  rw [hfold, if_pos (by norm_num [SemanticHealer.new] :
    (("#header-logo", (5:ℝ)/6) : String × ℝ).2 > SemanticHealer.new.threshold)]

/-- C5 counterexample: on a concrete request the heal succeeds (`healed = true`)
with a score of `5/6 ≈ 0.833`, which does not exceed `0.85` — so `healed` is
not "max score strictly above 0.85"; the implemented threshold is `0.70`. -/
theorem heal_threshold_counterexample :
    (SemanticHealer.new.heal embedX reqX).healed = true ∧
    ¬(SemanticHealer.new.heal embedX reqX).similarity_score > 0.85 := by
  rw [healEvalX]
  norm_num

/-- C6 witness: a concrete successful heal, with the theorem applied to it. -/
theorem heal_healed_imp_score_gt_threshold_witness :
    (SemanticHealer.new.heal embedX reqX).healed = true ∧
    (SemanticHealer.new.heal embedX reqX).similarity_score > SemanticHealer.new.threshold :=
  ⟨by rw [healEvalX],
    heal_healed_imp_score_gt_threshold SemanticHealer.new embedX reqX (by rw [healEvalX])⟩

/-- C7 (amended): `heal` performs no embedding-dimension validation.  A
request whose `last_known_embedding` length differs from every candidate
embedding's length is processed exactly as if all candidate embeddings were
empty — the cosine guard zeroes the visual term — and heal still returns a
plain `HealResult`; no error path exists. -/
theorem heal_no_dimension_validation (h : SemanticHealer) (embed : String → List ℝ)
    (req : HealRequest)
    (hm : ∀ c : String, (embed c).length ≠ req.last_known_embedding.length) :
    h.heal embed req = h.heal (fun _ => []) req := by
  have hcos : ∀ c : String, cosineSimilarity req.last_known_embedding (embed c) = 0 := by
    intro c
    unfold cosineSimilarity
    rw [if_pos (Or.inl fun he => hm c he.symm)]
  have hcos2 : ∀ c : String,
      cosineSimilarity req.last_known_embedding (([] : List ℝ)) = 0 := by
    intro c
    unfold cosineSimilarity
    by_cases hr : req.last_known_embedding = []
    · rw [if_pos (Or.inr hr)]
    · rw [if_pos (Or.inl (by simpa using fun he => hr (List.length_eq_zero.mp he)))]
  have hcomb : ∀ c ∈ healCandidates,
      combinedScore embed req c = combinedScore (fun _ => ([] : List ℝ)) req c := by
    intro c _
    unfold combinedScore
    rw [hcos c, hcos2 c]
  unfold SemanticHealer.heal
  rw [healFold_congr embed (fun _ => ([] : List ℝ)) req healCandidates ("", 0) hcomb]

/-- The concrete mismatched-dimension instance: every candidate embedding has
length 3, the request's last known embedding has length 2 (≠ 768 as well). -/
noncomputable def embedD : String → List ℝ :=
  fun _ => [0, 0, 0]

/-- Concrete request with an embedding of length 2 ≠ 768 and an empty failed
selector. -/
noncomputable def reqD : HealRequest :=
  { failed_selector := "", last_known_embedding := [1, 1], current_image := "" }

theorem stringSimilarity_empty_left (s : String) (hs : s.data.length ≠ 0) :
    stringSimilarity "" s = 0 := by
  unfold stringSimilarity
  have hd : "".data = ([] : List Char) := rfl
  rw [if_neg (by simpa [hd] using hs)]
  rw [hd, levenshteinDist_nil_left]
  have hpos : (0:ℝ) < (s.data.length : ℝ) := by
    exact_mod_cast Nat.pos_of_ne_zero hs
  have h0 : (("".data.length : ℕ) : ℝ) = 0 := by norm_num [hd]
  rw [h0, max_eq_right (le_of_lt hpos)]
  have hne : ((s.data.length : ℕ) : ℝ) ≠ 0 := ne_of_gt hpos
  rw [div_self hne]
  norm_num

/-- C7 counterexample: a request whose embedding length is 2 (not 768) is not
rejected — `heal` proceeds through candidate scoring and returns an ordinary
failed `HealResult`, not an `InvalidEmbeddingDimension` error (the function
cannot fail at all). -/
theorem heal_dimension_counterexample :
    reqD.last_known_embedding.length ≠ 768 ∧
    SemanticHealer.new.heal embedD reqD =
      { healed := false, new_selector := "", similarity_score := 0 } := by
  refine ⟨by norm_num [reqD], ?_⟩
  have hcos : ∀ c : String, cosineSimilarity reqD.last_known_embedding (embedD c) = 0 := by
    intro c
    unfold cosineSimilarity
    rw [if_pos (Or.inl (by norm_num [reqD, embedD]))]
  have hcomb : ∀ c ∈ healCandidates, combinedScore embedD reqD c = 0 := by
    intro c hc
    unfold combinedScore
    rw [hcos c]
    have hsim : stringSimilarity reqD.failed_selector c = 0 := by
      show stringSimilarity "" c = 0
      apply stringSimilarity_empty_left
      simp only [healCandidates, List.mem_cons, List.not_mem_nil, or_false] at hc
      rcases hc with h | h | h | h | h | h <;> subst h <;> decide
    rw [hsim]
    ring
  have hfold : healFold embedD reqD healCandidates ("", 0) = ("", 0) := by
    apply healFold_no_update
    intro c hc
    rw [hcomb c hc]
    norm_num
  unfold SemanticHealer.heal
  rw [hfold, if_neg (by norm_num [SemanticHealer.new] :
    ¬(((("" : String), (0:ℝ)) : String × ℝ).2 > SemanticHealer.new.threshold))]

/-- C7 witness: the amended no-validation theorem applied at the concrete
mismatched-dimension instance (`3 ≠ 2` for every candidate). -/
theorem heal_no_dimension_validation_witness :
    SemanticHealer.new.heal embedD reqD = SemanticHealer.new.heal (fun _ => []) reqD :=
  heal_no_dimension_validation SemanticHealer.new embedD reqD
    (fun c => by simp [embedD, reqD])

/-! ## State-change observer (`observer.rs`)

`StateChangeObserver::observe` is a pure function of the request: it computes
three component scores, each clamped below at `0` by `.max(0.0)`, combines
them as a weighted average (network 50%, DOM 30%, layout 20%) and reports
`stable` iff the combined score strictly exceeds `0.85`.  All arithmetic is
rational, so the `f32` computation is modelled over `ℚ`.  The three `let`
bindings `network_score`/`dom_score`/`cls_score` of the source are modelled as
named definitions. -/

structure ObserverRequest where
  url : String
  pending_network_requests : ℕ
  dom_mutation_rate : ℕ
  layout_shifts : ℚ

structure ObserverState where
  stable : Bool
  network_idle : Bool
  layout_shifts_score : ℚ
  dom_stability_score : ℚ
  amniotic_state_score : ℚ

structure StateChangeObserver where
  network_threshold : ℕ

/-- `StateChangeObserver::new` — "Zero Wait means 0 pending requests". -/
def StateChangeObserver.new : StateChangeObserver :=
  { network_threshold := 0 }

/-- `let network_score = ...`: `0` requests = `1.0`, otherwise
`(1.0 - n · 0.2).max(0.0)`. -/
def networkScore (req : ObserverRequest) : ℚ :=
  if req.pending_network_requests = 0 then 1
  else max (1 - (req.pending_network_requests : ℚ) * 0.2) 0

/-- `let dom_score = (1.0 - rate · 0.1).max(0.0)`. -/
def domScore (req : ObserverRequest) : ℚ :=
  max (1 - (req.dom_mutation_rate : ℚ) * 0.1) 0

/-- `let cls_score = (1.0 - cls · 5.0).max(0.0)`. -/
def clsScore (req : ObserverRequest) : ℚ :=
  max (1 - req.layout_shifts * 5.0) 0

/-- `let amniotic_score = network·0.5 + dom·0.3 + cls·0.2`. -/
def amnioticScore (req : ObserverRequest) : ℚ :=
  networkScore req * 0.5 + domScore req * 0.3 + clsScore req * 0.2

/-- `StateChangeObserver::observe`. -/
def StateChangeObserver.observe (o : StateChangeObserver) (req : ObserverRequest) :
    ObserverState :=
  { stable := decide (amnioticScore req > 0.85)
    network_idle := decide (req.pending_network_requests ≤ o.network_threshold)
    layout_shifts_score := clsScore req
    dom_stability_score := domScore req
    amniotic_state_score := amnioticScore req }

/-- Modelled from the spec (claim C3 / §4.3), for comparison only: start from
`score = 1.0`, subtract `0.5` if any network request is pending, `5.0 × CLS`
and `0.05 × dom_mutation_rate`, clamp to `[0, 1]`. -/
def specStabilityScore (req : ObserverRequest) : ℚ :=
  min (max (1 - (if req.pending_network_requests > 0 then (0.5 : ℚ) else 0)
      - 5 * req.layout_shifts - 0.05 * (req.dom_mutation_rate : ℚ)) 0) 1

/-- Modelled from the spec (claim C3): `stable = score ≥ 0.95`. -/
def specStable (req : ObserverRequest) : Bool :=
  decide (specStabilityScore req ≥ 0.95)

/-- The concrete one-pending-request sample used against C3. -/
def reqOnePending : ObserverRequest :=
  { url := "", pending_network_requests := 1, dom_mutation_rate := 0, layout_shifts := 0 }

/-- C3 counterexample: with one pending network request (no DOM mutations, no
layout shift) the implementation scores `0.8·0.5 + 0.3 + 0.2 = 0.9 > 0.85` and
reports `stable = true`, while the claimed penalty-subtraction algorithm gives
`1 - 0.5 = 0.5 < 0.95`, hence `stable = false`, and the two scores differ. -/
theorem observe_penalty_model_counterexample :
    (StateChangeObserver.new.observe reqOnePending).stable = true
    ∧ specStable reqOnePending = false
    ∧ (StateChangeObserver.new.observe reqOnePending).amniotic_state_score ≠
        specStabilityScore reqOnePending := by
  have hn : networkScore reqOnePending = 0.8 := by
    unfold networkScore reqOnePending
    rw [if_neg (by norm_num), max_def]
    norm_num
  have hd : domScore reqOnePending = 1 := by
    unfold domScore reqOnePending
    rw [max_def]
    norm_num
  have hc : clsScore reqOnePending = 1 := by
    unfold clsScore reqOnePending
    rw [max_def]
    norm_num
  have ha : amnioticScore reqOnePending = 0.9 := by
    unfold amnioticScore
    rw [hn, hd, hc]
    norm_num
  have hs : specStabilityScore reqOnePending = 0.5 := by
    unfold specStabilityScore reqOnePending
    rw [if_pos (by norm_num), max_def, min_def]
    norm_num
  refine ⟨?_, ?_, ?_⟩
  · show decide (amnioticScore reqOnePending > 0.85) = true
    rw [ha]
    norm_num
  · show decide (specStabilityScore reqOnePending ≥ 0.95) = false
    rw [hs]
    norm_num
  · show amnioticScore reqOnePending ≠ specStabilityScore reqOnePending
    rw [ha, hs]
    norm_num

/-- C3 (amended): `observe` computes the three clamped component scores, takes
their `0.5/0.3/0.2` weighted average — which lies in `[0, 1]` for any
nonnegative CLS input — and reports `stable` iff that average strictly exceeds
`0.85` (not `≥ 0.95`); `network_idle` iff no more requests are pending than
the observer's threshold allows. -/
theorem observe_weighted_average_spec (o : StateChangeObserver) (req : ObserverRequest)
    (hcls : 0 ≤ req.layout_shifts) :
    (0 ≤ (o.observe req).amniotic_state_score ∧ (o.observe req).amniotic_state_score ≤ 1)
    ∧ ((o.observe req).stable = true ↔ (o.observe req).amniotic_state_score > 0.85)
    ∧ ((o.observe req).network_idle = true ↔
        req.pending_network_requests ≤ o.network_threshold)
    ∧ (o.observe req).amniotic_state_score =
        networkScore req * 0.5 + (o.observe req).dom_stability_score * 0.3
          + (o.observe req).layout_shifts_score * 0.2 := by
  have h1 : 0 ≤ networkScore req := by
    unfold networkScore
    split
    · norm_num
    · exact le_max_right _ _
  have h2 : 0 ≤ domScore req := le_max_right _ _
  have h3 : 0 ≤ clsScore req := le_max_right _ _
  have h1' : networkScore req ≤ 1 := by
    unfold networkScore
    split
    · norm_num
    · apply max_le
      · have : (0:ℚ) ≤ (req.pending_network_requests : ℚ) * 0.2 := by positivity
        linarith
      · norm_num
  have h2' : domScore req ≤ 1 := by
    apply max_le
    · have : (0:ℚ) ≤ (req.dom_mutation_rate : ℚ) * 0.1 := by positivity
      linarith
    · norm_num
  have h3' : clsScore req ≤ 1 := by
    apply max_le
    · have : (0:ℚ) ≤ req.layout_shifts * 5.0 := by positivity
      linarith
    · norm_num
  refine ⟨⟨?_, ?_⟩, ?_, ?_, rfl⟩
  · show 0 ≤ amnioticScore req
    unfold amnioticScore
    positivity
  · show amnioticScore req ≤ 1
    unfold amnioticScore
    nlinarith
  · show decide (amnioticScore req > 0.85) = true ↔ amnioticScore req > 0.85
    exact decide_eq_true_iff
  · show decide (req.pending_network_requests ≤ o.network_threshold) = true ↔
      req.pending_network_requests ≤ o.network_threshold
    exact decide_eq_true_iff

/-- C3 witness: the amended weighted-average characterization applied at the
one-pending-request sample (`CLS = 0 ≥ 0`). -/
theorem observe_weighted_average_spec_witness :
    (0 ≤ (StateChangeObserver.new.observe reqOnePending).amniotic_state_score
      ∧ (StateChangeObserver.new.observe reqOnePending).amniotic_state_score ≤ 1)
    ∧ ((StateChangeObserver.new.observe reqOnePending).stable = true ↔
        (StateChangeObserver.new.observe reqOnePending).amniotic_state_score > 0.85)
    ∧ ((StateChangeObserver.new.observe reqOnePending).network_idle = true ↔
        reqOnePending.pending_network_requests ≤ StateChangeObserver.new.network_threshold)
    ∧ (StateChangeObserver.new.observe reqOnePending).amniotic_state_score =
        networkScore reqOnePending * 0.5
          + (StateChangeObserver.new.observe reqOnePending).dom_stability_score * 0.3
          + (StateChangeObserver.new.observe reqOnePending).layout_shifts_score * 0.2 :=
  observe_weighted_average_spec StateChangeObserver.new reqOnePending (le_refl 0)

/-! ## Goal-oriented agent (`agent.rs`)

The agent owns a `HashMap<PageState, Vec<(String, PageState)>>` world model;
`world_model.get(&s)` is modelled as an `Option (List (String × PageState))`
valued function.  `find_path` is breadth-first search with a visited set and a
loop cap of 1000 processed queue entries; the cap is the structural fuel of
the embedding, so termination is by construction.  `execute`'s random step
durations and identifiers are parameters. -/

inductive PageState where
  | Home
  | ProductListing
  | ProductDetail
  | Cart
  | Checkout
  | Login
  | Dashboard
deriving DecidableEq, Fintype

/-- Rust `Debug` rendering of a `PageState` (as used in `format!("{:?}")`). -/
def PageState.debugName : PageState → String
  | .Home => "Home"
  | .ProductListing => "ProductListing"
  | .ProductDetail => "ProductDetail"
  | .Cart => "Cart"
  | .Checkout => "Checkout"
  | .Login => "Login"
  | .Dashboard => "Dashboard"

structure GoalRequest where
  goal : String

structure AgentStep where
  step_id : ℕ
  action : String
  observation : String
  reasoning : String
  duration_ms : ℕ
  status : String

structure GoalResult where
  success : Bool
  goal_id : String
  steps : List AgentStep
  audit_log_url : String
  total_duration_ms : ℕ

structure GoalOrientedAgent where
  world_model : PageState → Option (List (String × PageState))

/-- `GoalOrientedAgent::new`: the fixed application graph.  Every state is a
key of the map, so the lookup always succeeds. -/
def GoalOrientedAgent.new : GoalOrientedAgent where
  world_model := fun s => some (match s with
    | .Home => [("click_product", .ProductDetail), ("click_login", .Login),
                ("search", .ProductListing)]
    | .ProductListing => [("click_product", .ProductDetail), ("filter", .ProductListing)]
    | .ProductDetail => [("add_to_cart", .Cart), ("back", .ProductListing)]
    | .Cart => [("checkout", .Checkout), ("remove_item", .Cart)]
    | .Checkout => [("apply_discount", .Checkout), ("complete_purchase", .Dashboard)]
    | .Login => [("submit_credentials", .Dashboard)]
    | .Dashboard => [("logout", .Home)])

/-- `str::to_lowercase`, character by character (the ASCII mapping suffices
for every keyword the agent matches). -/
def lowerString (s : String) : String :=
  ⟨s.data.map Char.toLower⟩

/-- Whether the first character list starts with the second. -/
def charListStartsWith : List Char → List Char → Bool
  | _, [] => true
  | [], _ :: _ => false
  | a :: as, b :: bs => a = b && charListStartsWith as bs

/-- Whether the pattern occurs as a contiguous run of the first list. -/
def charListHasSub : List Char → List Char → Bool
  | [], p => p.isEmpty
  | a :: as, p => charListStartsWith (a :: as) p || charListHasSub as p

/-- Rust `str::contains` for a literal pattern. -/
def strContains (s pat : String) : Bool :=
  charListHasSub s.data pat.data

/-- The target-state classification at the top of `execute`. -/
def classifyTarget (goal : String) : PageState :=
  if strContains (lowerString goal) "login" then .Dashboard
  else if strContains (lowerString goal) "purchase" || strContains (lowerString goal) "checkout"
    then .Checkout
  else .ProductListing

/-- The BFS `while let Some((current, path)) = queue.pop_front()` loop of
`find_path`.  The fuel counts the remaining iterations the `loop_count > 1000`
cap allows; each queue entry carries the path that reached it, and neighbours
are marked visited when enqueued. -/
def findPathLoop (wm : PageState → Option (List (String × PageState))) (target : PageState) :
    ℕ → List (PageState × List (String × PageState)) → List PageState →
      Option (List (String × PageState))
  | _, [], _ => none
  | 0, _ :: _, _ => none
  | fuel + 1, (current, path) :: rest, visited =>
    if current = target then some path
    else
      match wm current with
      | none => findPathLoop wm target fuel rest visited
      | some transitions =>
        let next := transitions.foldl
          (fun (acc : List (PageState × List (String × PageState)) × List PageState) t =>
            if t.2 ∈ acc.2 then acc
            else (acc.1 ++ [(t.2, path ++ [t])], t.2 :: acc.2))
          (rest, visited)
        findPathLoop wm target fuel next.1 next.2

/-- `GoalOrientedAgent::find_path`: BFS from `start` with the 1000-iteration
cap. -/
def GoalOrientedAgent.find_path (a : GoalOrientedAgent) (start target : PageState) :
    Option (List (String × PageState)) :=
  findPathLoop a.world_model target 1000 [(start, [])] [start]

/-- The first trace entry of every `execute` call. -/
def startStep : AgentStep :=
  { step_id := 1, action := "Start Session", observation := "Landed on Homepage",
    reasoning := "Initial state", duration_ms := 10, status := "completed" }

/-- The extra discount step injected after reaching `Checkout` when the goal
mentions a discount. -/
def discountStep (id : ℕ) : AgentStep :=
  { step_id := id, action := "Input \x27SAVE10\x27", observation := "Discount -10% applied",
    reasoning := "Goal Requirement: Discount", duration_ms := 100, status := "completed" }

/-- The body of `for (action, next_state) in path`: accumulates the step list,
the next step id and the running total duration.  `durations` supplies the
value `rng.gen_range(100..500)` drew for the step with the given id. -/
def pathStepFold (durations : ℕ → ℕ) (wantsDiscount : Bool)
    (acc : List AgentStep × ℕ × ℕ) (t : String × PageState) : List AgentStep × ℕ × ℕ :=
  let d := durations acc.2.1
  let navStep : AgentStep :=
    { step_id := acc.2.1
      action := t.1
      observation := "Transitioned to " ++ t.2.debugName
      reasoning := "Navigating to " ++ t.2.debugName ++ " via \x27" ++ t.1 ++ "\x27"
        ++ (if t.2 = .Checkout ∧ wantsDiscount then ". Will apply discount." else "")
      duration_ms := d
      status := "completed" }
  if t.2 = .Checkout ∧ wantsDiscount then
    (acc.1 ++ [navStep, discountStep (acc.2.1 + 1)], acc.2.1 + 2, acc.2.2 + d + 100)
  else
    (acc.1 ++ [navStep], acc.2.1 + 1, acc.2.2 + d)

/-- `GoalOrientedAgent::execute`.  `goalId` stands for the fresh UUID,
`auditUrl` for the randomly named audit-log URL, `durations` for the
per-step random durations.  Note the returned `success` flag: the source sets
it to the literal `true` on both branches (`agent.rs:166`). -/
def GoalOrientedAgent.execute (a : GoalOrientedAgent) (durations : ℕ → ℕ)
    (goalId auditUrl : String) (req : GoalRequest) : GoalResult :=
  let target := classifyTarget req.goal
  let wantsDiscount := strContains (lowerString req.goal) "discount"
  match a.find_path .Home target with
  | some path =>
    let built := path.foldl (pathStepFold durations wantsDiscount) ([startStep], 2, 10)
    { success := true, goal_id := goalId, steps := built.1,
      audit_log_url := auditUrl, total_duration_ms := built.2.2 }
  | none =>
    { success := true, goal_id := goalId
      steps := [startStep,
        { step_id := 2, action := "Error", observation := "Could not find path",
          reasoning := "Target state unreachable", duration_ms := 0, status := "failed" }]
      audit_log_url := auditUrl, total_duration_ms := 10 }

/-- `p` is a walk from `s` to `t` along world-model edges: each entry is a
transition listed for the state reached so far (a missing key offers no
transitions). -/
def isPathFrom (wm : PageState → Option (List (String × PageState))) :
    PageState → List (String × PageState) → PageState → Prop
  | s, [], t => s = t
  | s, e :: rest, t => e ∈ (wm s).getD [] ∧ isPathFrom wm e.2 rest t

def isPathFromDec (wm : PageState → Option (List (String × PageState))) :
    (s : PageState) → (p : List (String × PageState)) → (t : PageState) →
      Decidable (isPathFrom wm s p t)
  | s, [], t => decidable_of_iff (s = t) (by simp [isPathFrom])
  | s, e :: rest, t =>
    have : Decidable (isPathFrom wm e.2 rest t) := isPathFromDec wm e.2 rest t
    decidable_of_iff (e ∈ (wm s).getD [] ∧ isPathFrom wm e.2 rest t) (by simp [isPathFrom])

attribute [instance] isPathFromDec

/-- Any function that is `0` at the start and grows by at most `1` along every
world-model edge bounds every walk's length from below. -/
theorem isPathFrom_dist_le (wm : PageState → Option (List (String × PageState)))
    (d : PageState → ℕ)
    (hedge : ∀ (s : PageState), ∀ e ∈ (wm s).getD [], d e.2 ≤ d s + 1) :
    ∀ (p : List (String × PageState)) (s t : PageState),
      isPathFrom wm s p t → d t ≤ d s + p.length := by
  intro p
  induction p with
  | nil =>
    intro s t h
    have hst : s = t := h
    subst hst
    simp
  | cons e rest ih =>
    intro s t h
    obtain ⟨he, hrest⟩ := h
    have h1 := ih e.2 t hrest
    have h2 := hedge s e he
    simp only [List.length_cons]
    omega

/-- BFS distance from `Home` in the graph `GoalOrientedAgent::new` builds. -/
def distHome : PageState → ℕ
  | .Home => 0
  | .ProductListing => 1
  | .ProductDetail => 1
  | .Login => 1
  | .Cart => 2
  | .Dashboard => 2
  | .Checkout => 3

theorem distHome_edge :
    ∀ (s : PageState), ∀ e ∈ ((GoalOrientedAgent.new.world_model s).getD []),
      distHome e.2 ≤ distHome s + 1 := by
  decide

/-- C8: for every target reachable from the agent's start state `Home`
(witnessed by any walk `q`), `find_path` returns a walk from `Home` to the
target that is no longer than `q` — BFS optimality in edge count.  The search
is total by construction: the 1000-iteration cap is the structural fuel of
`findPathLoop`, so it terminates on any graph, cyclic ones included. -/
theorem find_path_bfs_optimal (t : PageState) (q : List (String × PageState))
    (hq : isPathFrom GoalOrientedAgent.new.world_model .Home q t) :
    ∃ p, GoalOrientedAgent.new.find_path .Home t = some p ∧
      isPathFrom GoalOrientedAgent.new.world_model .Home p t ∧ p.length ≤ q.length := by
  have hlb := isPathFrom_dist_le GoalOrientedAgent.new.world_model distHome distHome_edge
    q .Home t hq
  cases t with
  | Home => exact ⟨[], by decide, by decide, Nat.zero_le _⟩
  | ProductListing =>
    exact ⟨[("search", .ProductListing)], by decide, by decide,
      by simp [distHome] at hlb; simpa using hlb⟩
  | ProductDetail =>
    exact ⟨[("click_product", .ProductDetail)], by decide, by decide,
      by simp [distHome] at hlb; simpa using hlb⟩
  | Login =>
    exact ⟨[("click_login", .Login)], by decide, by decide,
      by simp [distHome] at hlb; simpa using hlb⟩
  | Cart =>
    exact ⟨[("click_product", .ProductDetail), ("add_to_cart", .Cart)],
      by decide, by decide, by simp [distHome] at hlb; simpa using hlb⟩
  | Dashboard =>
    exact ⟨[("click_login", .Login), ("submit_credentials", .Dashboard)],
      by decide, by decide, by simp [distHome] at hlb; simpa using hlb⟩
  | Checkout =>
    exact ⟨[("click_product", .ProductDetail), ("add_to_cart", .Cart),
      ("checkout", .Checkout)], by decide, by decide,
      by simp [distHome] at hlb; simpa using hlb⟩

/-- C8 witness: `Checkout` is reachable from `Home` via the four-edge walk
`search / click_product / add_to_cart / checkout`; BFS returns a valid walk of
at most that length (in fact the three-edge one). -/
theorem find_path_bfs_optimal_witness :
    ∃ p, GoalOrientedAgent.new.find_path .Home .Checkout = some p ∧
      isPathFrom GoalOrientedAgent.new.world_model .Home p .Checkout ∧
      p.length ≤ ([("search", PageState.ProductListing),
        ("click_product", PageState.ProductDetail),
        ("add_to_cart", PageState.Cart),
        ("checkout", PageState.Checkout)] : List (String × PageState)).length :=
  find_path_bfs_optimal .Checkout
    [("search", PageState.ProductListing), ("click_product", PageState.ProductDetail),
      ("add_to_cart", PageState.Cart), ("checkout", PageState.Checkout)] (by decide)

/-- C1: evaluation at the failing input (an agent whose world model offers no
transitions, goal `"login"`): the trace records the start step `completed` and
a single `failed` step, so the conjunction of statuses is false, yet the
returned `success` flag is the hard-coded `true` of `agent.rs:166`. -/
theorem execute_unreachable_still_success :
    ((GoalOrientedAgent.mk fun _ => none).execute (fun _ => 0) "goal-1" "s3://audit"
        { goal := "login" }).success = true
    ∧ (((GoalOrientedAgent.mk fun _ => none).execute (fun _ => 0) "goal-1" "s3://audit"
        { goal := "login" }).steps.map AgentStep.status) = ["completed", "failed"] := by
  decide

/-! ## Neural locator (`neural_locator.rs`)

`NeuralLocator::analyze` decodes the request image and runs the simulated
ViT pipeline.  The base64 decoder and the two image loaders
(`image::load_from_memory`, `image::load_from_memory_with_format(PNG)`) are
external codecs, modelled as oracle parameters; only an image's dimensions are
ever observed by the pipeline.  The thread-RNG draws (confidence, generic box
coordinates, noise factors, embedding and heatmap vectors) are parameters too,
as is the `{:.2}`-formatted rendering of the confidence used in the reasoning
string.  The locator's shared `neural_map` state is threaded through
explicitly: `analyze` receives the map and returns the map it leaves behind
(the source's `analyze` never locks or touches `self.neural_map`; only
`update_map` writes it). -/

structure BoundingBox where
  x : ℤ
  y : ℤ
  width : ℤ
  height : ℤ
  label : Option String
  confidence : ℚ
deriving DecidableEq

structure VisionRequest where
  image_base64 : String
  intent : String

structure VisionResult where
  found : Bool
  location : Option BoundingBox
  candidates : List BoundingBox
  confidence : ℚ
  semantic_embedding : List ℚ
  heatmap_data : List ℚ
  reasoning : String
  processing_time_ms : ℕ

structure NeuralMapEntry where
  location : BoundingBox
  embedding : List ℚ
  last_seen : ℕ
deriving DecidableEq

/-- The locator's intent-keyed memory (`HashMap<String, NeuralMapEntry>`),
modelled as an association list whose lookup takes the most recent insertion
for a key — the lookup semantics of the hash map. -/
structure NeuralMap where
  memory : List (String × NeuralMapEntry)

def NeuralMap.new : NeuralMap :=
  { memory := [] }

def NeuralMap.get (m : NeuralMap) (intent : String) : Option NeuralMapEntry :=
  m.memory.lookup intent

/-- `NeuralMap::update` / `NeuralLocator::update_map`: insert (replacing any
previous entry for the key under lookup). `now` is the wall-clock timestamp. -/
def NeuralMap.update (m : NeuralMap) (intent : String) (embedding : List ℚ)
    (location : BoundingBox) (now : ℕ) : NeuralMap :=
  { memory := (intent, { location := location, embedding := embedding, last_seen := now })
      :: m.memory }

/-- The decoded image as far as `analyze` observes it. -/
structure ImageData where
  width : ℕ
  height : ℕ

/-- The external codecs `analyze` calls, as oracles. -/
structure DecodeOracles where
  b64decode : String → Option (List ℕ)
  load_from_memory : List ℕ → Option ImageData
  load_png : List ℕ → Option ImageData

/-- The values `rand::thread_rng` supplies to one `analyze` call, plus the
`{:.2}` rendering of the drawn confidence. -/
structure AnalyzeRng where
  confidence : ℚ
  confidenceStr : String
  genericX : ℤ
  genericY : ℤ
  genericConfidence : ℚ
  noiseFactors : ℕ → ℚ × ℚ × ℚ
  embedding : List ℚ
  heatmap : List ℚ

/-- Rust `as i32` truncation of an `f32` product, modelled on exact rationals
(truncation toward zero). -/
def ratTruncToInt (q : ℚ) : ℤ :=
  q.num / (q.den : ℤ)

/-- The intent-keyword branch choosing the primary bounding box. -/
def primaryBox (img : ImageData) (rng : AnalyzeRng) (intent : String) : Option BoundingBox :=
  if strContains (lowerString intent) "buy" || strContains (lowerString intent) "checkout" then
    some
      { x := (img.width : ℤ) - 200, y := (img.height : ℤ) - 100, width := 150, height := 50,
        label := some "Primary Action", confidence := rng.confidence }
  else if strContains (lowerString intent) "login" then
    some
      { x := (img.width : ℤ) - 150, y := 50, width := 80, height := 30,
        label := some "Auth Trigger", confidence := rng.confidence }
  else if strContains (lowerString intent) "discount" then
    some
      { x := 400, y := 500, width := 200, height := 40,
        label := some "Input Field", confidence := rng.confidence }
  else if intent = "FAIL_TEST" then none
  else
    some
      { x := rng.genericX, y := rng.genericY, width := 100, height := 40,
        label := some "Generic Element", confidence := rng.genericConfidence }

/-- The two "Ambiguous Match" noise candidates derived from the primary box. -/
def noiseCandidates (primary : BoundingBox) (rng : AnalyzeRng) : List BoundingBox :=
  [0, 1].map fun i =>
    { x := ratTruncToInt ((primary.x : ℚ) * (rng.noiseFactors i).1)
      y := ratTruncToInt ((primary.y : ℚ) * (rng.noiseFactors i).2.1)
      width := primary.width
      height := primary.height
      label := some "Ambiguous Match"
      confidence := primary.confidence * (rng.noiseFactors i).2.2 }

/-- The reasoning string `format!("ViT Layer identified '{}' based on ...")`. -/
def vitReasoning (intent confStr : String) : String :=
  "ViT Layer identified \x27" ++ intent ++
    "\x27 based on visual intent patterns (Edge detection, OCR, Iconography). Confidence: "
    ++ confStr

/-- Steps 3+ of `analyze` (everything after an image is in hand). -/
def analyzeWithImage (img : ImageData) (rng : AnalyzeRng) (intent : String)
    (elapsed : ℕ) : VisionResult :=
  let pb := primaryBox img rng intent
  { found := pb.isSome
    location := pb
    candidates := match pb with
      | some primary => primary :: noiseCandidates primary rng
      | none => []
    confidence := rng.confidence
    semantic_embedding := rng.embedding
    heatmap_data := rng.heatmap
    reasoning := vitReasoning intent rng.confidenceStr
    processing_time_ms := elapsed }

/-- The early return of `analyze` when base64 decoding fails. -/
def decodeErrorResult : VisionResult :=
  { found := false, location := none, candidates := [], confidence := 0,
    semantic_embedding := [], heatmap_data := [],
    reasoning := "Failed to decode Base64 image data.", processing_time_ms := 0 }

/-- `NeuralLocator::analyze`: decode, load (with PNG retry and, failing both,
the `DynamicImage::new_rgb8(1024, 768)` blank-canvas fallback), then the ViT
simulation.  The neural map passes through untouched. -/
def NeuralLocator.analyze (map : NeuralMap) (o : DecodeOracles) (rng : AnalyzeRng)
    (elapsed : ℕ) (req : VisionRequest) : NeuralMap × VisionResult :=
  match o.b64decode req.image_base64 with
  | none => (map, decodeErrorResult)
  | some bytes =>
    match o.load_from_memory bytes with
    | some img => (map, analyzeWithImage img rng req.intent elapsed)
    | none =>
      match o.load_png bytes with
      | some img => (map, analyzeWithImage img rng req.intent elapsed)
      | none => (map, analyzeWithImage { width := 1024, height := 768 } rng req.intent elapsed)

theorem vitReasoning_ne_retrieved (i c : String) :
    vitReasoning i c ≠ "retrieved from memory" := by
  intro h
  have hd := congrArg String.data h
  unfold vitReasoning at hd
  rw [String.data_append, String.data_append, String.data_append] at hd
  rw [show "ViT Layer identified \x27".data = 'V' :: "iT Layer identified \x27".data from rfl,
    show "retrieved from memory".data = 'r' :: "etrieved from memory".data from rfl] at hd
  simp at hd

/-- C2 (amended): `analyze` implements no Neural-Map caching at all.  It
returns the map it was given unchanged, its result does not depend on the map
(the whole pipeline re-runs on every call), and its reasoning string is never
`"retrieved from memory"`; the map is only ever written through `update_map`. -/
theorem analyze_no_cache (map map2 : NeuralMap) (o : DecodeOracles) (rng : AnalyzeRng)
    (elapsed : ℕ) (req : VisionRequest) :
    (NeuralLocator.analyze map o rng elapsed req).1 = map
    ∧ (NeuralLocator.analyze map o rng elapsed req).2 =
        (NeuralLocator.analyze map2 o rng elapsed req).2
    ∧ (NeuralLocator.analyze map o rng elapsed req).2.reasoning ≠ "retrieved from memory" := by
  cases hb : o.b64decode req.image_base64 with
  | none =>
    refine ⟨?_, ?_, ?_⟩ <;> simp only [NeuralLocator.analyze, hb]
    · decide
  | some bytes =>
    cases hm : o.load_from_memory bytes with
    | some img =>
      refine ⟨?_, ?_, ?_⟩ <;> simp only [NeuralLocator.analyze, hb, hm]
      exact vitReasoning_ne_retrieved _ _
    | none =>
      cases hp : o.load_png bytes with
      | some img =>
        refine ⟨?_, ?_, ?_⟩ <;> simp only [NeuralLocator.analyze, hb, hm, hp]
        exact vitReasoning_ne_retrieved _ _
      | none =>
        refine ⟨?_, ?_, ?_⟩ <;> simp only [NeuralLocator.analyze, hb, hm, hp]
        exact vitReasoning_ne_retrieved _ _

/-- Oracles for the cache counterexample: the base64 decoder and the first
image loader both succeed. -/
def oraclesDecodeOk : DecodeOracles :=
  { b64decode := fun _ => some [0]
    load_from_memory := fun _ => some { width := 1024, height := 768 }
    load_png := fun _ => none }

/-- A fixed draw of the thread RNG: confidence `0.98` (inside the
`0.85..0.99` range and above the spec's `0.90` write threshold). -/
def rngFixed : AnalyzeRng :=
  { confidence := 0.98, confidenceStr := "0.98", genericX := 0, genericY := 0,
    genericConfidence := 0.5, noiseFactors := fun _ => (1, 1, 1),
    embedding := [], heatmap := [] }

/-- C2 counterexample: a successful `analyze` of intent `"checkout"` with
confidence `0.98` (above the write threshold) leaves the Neural Map empty —
no entry for the intent is created — and a second identical call still does
not answer `"retrieved from memory"`. -/
theorem analyze_cache_counterexample :
    (NeuralLocator.analyze NeuralMap.new oraclesDecodeOk rngFixed 5
        { image_base64 := "img", intent := "checkout" }).2.found = true
    ∧ (NeuralLocator.analyze NeuralMap.new oraclesDecodeOk rngFixed 5
        { image_base64 := "img", intent := "checkout" }).2.confidence > 0.9
    ∧ (NeuralLocator.analyze NeuralMap.new oraclesDecodeOk rngFixed 5
        { image_base64 := "img", intent := "checkout" }).1.get "checkout" = none
    ∧ (NeuralLocator.analyze
        (NeuralLocator.analyze NeuralMap.new oraclesDecodeOk rngFixed 5
          { image_base64 := "img", intent := "checkout" }).1
        oraclesDecodeOk rngFixed 5
        { image_base64 := "img", intent := "checkout" }).2.reasoning ≠
      "retrieved from memory" := by
  refine ⟨by decide, ?_, by decide, by decide⟩
  show (0.98 : ℚ) > 0.9
  norm_num

/-- C4 (amended): a malformed base64 input makes `analyze` fail early with the
decode-failure result (`found = false`, empty candidates and embedding, the
`"Failed to decode Base64 image data."` reasoning); but a *successfully*
base64-decoded input whose bytes no image codec accepts is not an error: the
pipeline silently proceeds on the blank 1024×768 canvas. -/
theorem analyze_decode_paths (map : NeuralMap) (o : DecodeOracles) (rng : AnalyzeRng)
    (elapsed : ℕ) (req : VisionRequest) :
    (o.b64decode req.image_base64 = none →
      (NeuralLocator.analyze map o rng elapsed req).2 = decodeErrorResult
      ∧ (NeuralLocator.analyze map o rng elapsed req).2.found = false)
    ∧ (∀ bytes, o.b64decode req.image_base64 = some bytes →
        o.load_from_memory bytes = none → o.load_png bytes = none →
        (NeuralLocator.analyze map o rng elapsed req).2 =
          analyzeWithImage { width := 1024, height := 768 } rng req.intent elapsed) := by
  constructor
  · intro h
    refine ⟨?_, ?_⟩ <;> simp only [NeuralLocator.analyze, h]
    decide
  · intro bytes hb hm hp
    simp only [NeuralLocator.analyze, hb, hm, hp]

/-- Oracles for the blank-canvas counterexample: `"QUFBQQ=="` is valid base64
for the bytes `AAAA` (`[65, 65, 65, 65]`), which no image codec accepts. -/
def oraclesBlankFallback : DecodeOracles :=
  { b64decode := fun s => if s = "QUFBQQ==" then some [65, 65, 65, 65] else none
    load_from_memory := fun _ => none
    load_png := fun _ => none }

/-- C4 counterexample: an undecodable-image input (valid base64, junk bytes)
does not fail — `analyze` substitutes the blank canvas, reports `found = true`
for intent `"checkout"` and its reasoning is not a decode error. -/
theorem analyze_blank_canvas_counterexample :
    (NeuralLocator.analyze NeuralMap.new oraclesBlankFallback rngFixed 5
        { image_base64 := "QUFBQQ==", intent := "checkout" }).2.found = true
    ∧ (NeuralLocator.analyze NeuralMap.new oraclesBlankFallback rngFixed 5
        { image_base64 := "QUFBQQ==", intent := "checkout" }).2.reasoning ≠
      "Failed to decode Base64 image data." := by
  decide
